import Mathlib

/-!
Verification of the NinjaRipper RIP-to-OBJ converter (NinjaRipper-OBJ.py).

The converter is embedded shallowly: the input file is a list of byte
values, Python file objects become explicit byte positions, Python
exceptions become an `Except`/`Option` error value, and IEEE-754 float
decoding is an abstract parameter `f32 : List Nat → ℚ` mapping the four
raw little-endian bytes of a float to its rational value (the converter
never inspects float values, it only moves them around, so all claims
are independent of the concrete bit-level decoding).
-/

namespace NinjaRip

/-- Bytes of the input file, one natural number per byte. -/
abbrev Buf := List Nat

/-- The Python exceptions the converter can raise while reading:
`EOFError` from `safe_read`, `ValueError` from `find_face_start`. -/
inductive PyErr where
  | eof
  | valueErr
deriving DecidableEq

/-- `safe_read(f, size)` (source lines 19-23): `f.read(size)` yields the
bytes from the current position, truncated at end of file; an `EOFError`
is raised unless exactly `size` bytes were obtained. `pos` is the file
position at the time of the call. -/
def safe_read (buf : Buf) (pos size : Nat) : Except PyErr (List Nat) :=
  let data := (buf.drop pos).take size
  if data.length = size then Except.ok data else Except.error PyErr.eof

/-- Little-endian unsigned 32-bit value of four bytes
(Python `struct.unpack` with format `<I`). -/
def le32 : List Nat → Nat
  | [b0, b1, b2, b3] => b0 + 256 * b1 + 65536 * b2 + 16777216 * b3
  | _ => 0

/-- `read_int32` (source lines 25-26). -/
def read_int32 (buf : Buf) (pos : Nat) : Except PyErr Nat :=
  (safe_read buf pos 4).map le32

/-- `read_float` (source lines 28-29); the IEEE-754 bit decoding of the
four raw bytes is the abstract parameter `f32`. -/
def read_float (f32 : List Nat → ℚ) (buf : Buf) (pos : Nat) : Except PyErr ℚ :=
  (safe_read buf pos 4).map f32

/-- `UV_OFFSET_MAP` (source lines 12-17), as a partial lookup:
`dict.get` returns `none` for a missing stride. -/
def UV_OFFSET_MAP (stride : Nat) : Option Nat :=
  if stride = 184 then some 60
  else if stride = 160 then some 52
  else if stride = 56 then some 48
  else if stride = 20 then some 12
  else none

/-- Global toggle `FLIP_UV_VERTICALLY = True` (source line 9). -/
def FLIP_UV_VERTICALLY : Bool := true

/-- The 12-byte search pattern of `find_face_start` (source line 60):
the little-endian uint32 triple (0, 1, 2). -/
def facePat : List Nat := [0, 0, 0, 0, 1, 0, 0, 0, 2, 0, 0, 0]

/-- `facePat` occurs at byte offset `q` of the buffer. -/
def patternAt (buf : Buf) (q : Nat) : Prop := (buf.drop q).take 12 = facePat

instance (buf : Buf) (q : Nat) : Decidable (patternAt buf q) := by
  unfold patternAt; infer_instance

/-- Python `bytes.find`: the least offset at which `facePat` occurs in the
remaining list, `i` being the offset of the list head in the whole buffer. -/
def findPat : List Nat → Nat → Option Nat
  | [], _ => none
  | l@(_ :: rest), i => if l.take 12 = facePat then some i else findPat rest (i + 1)

/-- `find_face_start` (source lines 57-68): offset of the first occurrence
of the (0, 1, 2) pattern anywhere in the file, or `ValueError`. -/
def find_face_start (buf : Buf) : Except PyErr Nat :=
  match findPat buf 0 with
  | some p => Except.ok p
  | none => Except.error PyErr.valueErr

/-- The face-extraction loop (source lines 290-295): read `face_count`
uint32 triples sequentially from `pos`, appending every triple as
`(i1 + 1, i2 + 1, i3 + 1)`; a failed read raises, keeping the faces
accumulated so far.  Returns the faces list and the error, if any. -/
def readFacesLoop (buf : Buf) : Nat → Nat → List (Nat × Nat × Nat) × Option PyErr
  | _, 0 => ([], none)
  | pos, n + 1 =>
    match read_int32 buf pos with
    | Except.error e => ([], some e)
    | Except.ok a =>
      match read_int32 buf (pos + 4) with
      | Except.error e => ([], some e)
      | Except.ok b =>
        match read_int32 buf (pos + 8) with
        | Except.error e => ([], some e)
        | Except.ok c =>
          let rest := readFacesLoop buf (pos + 12) n
          ((a + 1, b + 1, c + 1) :: rest.1, rest.2)

/-- The vertex-decode loop (source lines 297-333), vertex index `i`,
`k` vertices left to read.  Each iteration seeks to
`vds + i * stride`, reads three position floats and three normal floats
sequentially, and, when `uvo = some u`, seeks to `vds + i * stride + u`
and reads two floats, storing `(u, 1 - v)` when `FLIP_UV_VERTICALLY`.
A failed read raises, keeping the values accumulated so far (a record's
vertex is appended before its normal, its normal before its UV).
Returns (vertices, normals, uvs, error). -/
def readVerticesLoop (f32 : List Nat → ℚ) (buf : Buf) (vds stride : Nat)
    (uvo : Option Nat) :
    Nat → Nat → List (ℚ × ℚ × ℚ) × List (ℚ × ℚ × ℚ) × List (ℚ × ℚ) × Option PyErr
  | _, 0 => ([], [], [], none)
  | i, k + 1 =>
    let b := vds + i * stride
    match read_float f32 buf b with
    | Except.error e => ([], [], [], some e)
    | Except.ok vx =>
    match read_float f32 buf (b + 4) with
    | Except.error e => ([], [], [], some e)
    | Except.ok vy =>
    match read_float f32 buf (b + 8) with
    | Except.error e => ([], [], [], some e)
    | Except.ok vz =>
    match read_float f32 buf (b + 12) with
    | Except.error e => ([(vx, vy, vz)], [], [], some e)
    | Except.ok nx =>
    match read_float f32 buf (b + 16) with
    | Except.error e => ([(vx, vy, vz)], [], [], some e)
    | Except.ok ny =>
    match read_float f32 buf (b + 20) with
    | Except.error e => ([(vx, vy, vz)], [], [], some e)
    | Except.ok nz =>
    match uvo with
    | none =>
      let r := readVerticesLoop f32 buf vds stride uvo (i + 1) k
      ((vx, vy, vz) :: r.1, (nx, ny, nz) :: r.2.1, r.2.2.1, r.2.2.2)
    | some u =>
      match read_float f32 buf (b + u) with
      | Except.error e => ([(vx, vy, vz)], [(nx, ny, nz)], [], some e)
      | Except.ok uu =>
      match read_float f32 buf (b + u + 4) with
      | Except.error e => ([(vx, vy, vz)], [(nx, ny, nz)], [], some e)
      | Except.ok vvRaw =>
        let vv := if FLIP_UV_VERTICALLY then 1 - vvRaw else vvRaw
        let r := readVerticesLoop f32 buf vds stride uvo (i + 1) k
        ((vx, vy, vz) :: r.1, (nx, ny, nz) :: r.2.1, (uu, vv) :: r.2.2.1, r.2.2.2)

/-- Everything `convert_rip_to_obj` extracted from one file: the three
header fields it reads, the four geometry lists, and the exception the
reading phase raised (`none` when it completed). -/
structure RipResult where
  face_count : Nat
  vert_count : Nat
  stride : Nat
  vertices : List (ℚ × ℚ × ℚ)
  normals : List (ℚ × ℚ × ℚ)
  uvs : List (ℚ × ℚ)
  faces : List (Nat × Nat × Nat)
  error : Option PyErr

/-- State of the converter when reading crashed before any header field
was assigned. -/
def errResult (e : PyErr) : RipResult := ⟨0, 0, 0, [], [], [], [], some e⟩

/-- Source lines 287-333: face extraction from the found pattern offset
`fs`, then the vertex loop from `vertex_data_start = f.tell()`, which is
`fs + 12 * face_count` after `face_count` triple reads. -/
def afterFaceStart (f32 : List Nat → ℚ) (buf : Buf) (fc vc st fs : Nat) : RipResult :=
  let fr := readFacesLoop buf fs fc
  match fr.2 with
  | some e => ⟨fc, vc, st, [], [], [], fr.1, some e⟩
  | none =>
    let vr := readVerticesLoop f32 buf (fs + 12 * fc) st (UV_OFFSET_MAP st) 0 vc
    ⟨fc, vc, st, vr.1, vr.2.1, vr.2.2.1, fr.1, vr.2.2.2⟩

/-- Source lines 279-288: the UV-offset lookup (pure) and
`find_face_start`; a `ValueError` there is caught with the geometry
lists still empty. -/
def afterHeader (f32 : List Nat → ℚ) (buf : Buf) (fc vc st : Nat) : RipResult :=
  match find_face_start buf with
  | Except.error e => ⟨fc, vc, st, [], [], [], [], some e⟩
  | Except.ok fs => afterFaceStart f32 buf fc vc st fs

/-- The reading phase of `convert_rip_to_obj` (the `try` block, source
lines 265-333): read 8 header-magic bytes at offset 0 (never compared to
anything), then `face_count`, `vert_count`, `stride` at offsets 8, 12,
16, then faces and vertices.  Any exception is caught by the caller,
which keeps whatever was accumulated (source lines 345-349). -/
def convert_read (f32 : List Nat → ℚ) (buf : Buf) : RipResult :=
  match safe_read buf 0 8 with
  | Except.error e => errResult e
  | Except.ok _ =>
  match read_int32 buf 8 with
  | Except.error e => errResult e
  | Except.ok fc =>
  match read_int32 buf 12 with
  | Except.error e => errResult e
  | Except.ok vc =>
  match read_int32 buf 16 with
  | Except.error e => errResult e
  | Except.ok st => afterHeader f32 buf fc vc st

/-- One line of the OBJ file written by source lines 360-383.  The
`header` comment, `mtllib` and `usemtl` lines carry no geometry (the
base-name text they mention is irrelevant here); `v`, `vt`, `vn` and
`face` lines carry the numbers written. -/
inductive ObjLine where
  | header
  | mtllib
  | v (x y z : ℚ)
  | vt (u w : ℚ)
  | vn (x y z : ℚ)
  | usemtl
  | face (a b c : Nat)
deriving DecidableEq

def ObjLine.isV : ObjLine → Bool
  | ObjLine.v _ _ _ => true
  | _ => false

def ObjLine.isF : ObjLine → Bool
  | ObjLine.face _ _ _ => true
  | _ => false

/-- The OBJ writer (source lines 360-383): header comment, `mtllib` when
textures were found, one `v` line per vertex, one `vt` line per UV, one
`vn` line per normal, `usemtl` when textures were found, one `f` line
per face triple.  It consumes whatever `RipResult` it is given — also a
partial one left by a caught exception. -/
def write_obj (textures : List String) (r : RipResult) : List ObjLine :=
  [ObjLine.header]
    ++ (if textures.isEmpty then [] else [ObjLine.mtllib])
    ++ r.vertices.map (fun p => ObjLine.v p.1 p.2.1 p.2.2)
    ++ r.uvs.map (fun p => ObjLine.vt p.1 p.2)
    ++ r.normals.map (fun p => ObjLine.vn p.1 p.2.1 p.2.2)
    ++ (if textures.isEmpty then [] else [ObjLine.usemtl])
    ++ r.faces.map (fun t => ObjLine.face t.1 t.2.1 t.2.2)

/-- `convert_rip_to_obj` with `EXPORT_GLB = False` (the source default):
read the file, catch any exception, and write the OBJ lines from the
(possibly partial) result unconditionally (source lines 345-385).
`textures` is the list found by `find_dds_textures` (out of scope here,
it only toggles the `mtllib`/`usemtl` lines).  Returns the OBJ lines
and the exception the reading phase raised, if any. -/
def convert_rip_to_obj (f32 : List Nat → ℚ) (textures : List String) (buf : Buf) :
    List ObjLine × Option PyErr :=
  let r := convert_read f32 buf
  (write_obj textures r, r.error)

/-- A file-position event of the vertex-decode loop: an explicit
`f.seek` or a 4-byte `f.read` at a position. -/
inductive Ev where
  | seek (pos : Nat)
  | read (pos size : Nat)
deriving DecidableEq

/-- The seek/read trace of the vertex-decode loop (source lines
297-333): for each record, `f.seek(vertex_block_start)`, six
sequential 4-byte float reads (position then normal), and when UV
extraction is active an `f.seek(vertex_block_start + uv_offset)`
followed by two 4-byte reads. -/
def vertexLoopTrace (vds stride : Nat) (uvo : Option Nat) : Nat → Nat → List Ev
  | _, 0 => []
  | i, k + 1 =>
    let b := vds + i * stride
    [Ev.seek b, Ev.read b 4, Ev.read (b + 4) 4, Ev.read (b + 8) 4,
      Ev.read (b + 12) 4, Ev.read (b + 16) 4, Ev.read (b + 20) 4]
      ++ (match uvo with
          | none => []
          | some u => [Ev.seek (b + u), Ev.read (b + u) 4, Ev.read (b + u + 4) 4])
      ++ vertexLoopTrace vds stride uvo (i + 1) k

/-- A trace is a single sequential pass: starting from position `p`,
every read happens at the current position and every seek is a no-op
(targets the current position); any seek that moves the position is a
re-seek. -/
def noReseek : Nat → List Ev → Bool
  | _, [] => true
  | p, Ev.seek q :: rest => if q = p then noReseek q rest else false
  | p, Ev.read q s :: rest => if q = p then noReseek (q + s) rest else false

/-- The targets of the explicit seeks of a trace, in order. -/
def seekTargets (l : List Ev) : List Nat :=
  l.filterMap (fun e => match e with | Ev.seek p => some p | Ev.read _ _ => none)

/-- The length of an `Except` payload, `none` on error. -/
def readLen : Except PyErr (List Nat) → Option Nat
  | Except.ok l => some (l.length)
  | Except.error _ => none

/-- A concrete float decoder for closed test inputs (all test vertex
bytes decode to 0). -/
def f32zero : List Nat → ℚ := fun _ => 0

/-- An 8-byte header-magic block used by the concrete test files. -/
def magicA : List Nat := [77, 77, 77, 77, 77, 77, 77, 77]

/-- Concrete file: face_count = 2, vert_count = 0, stride = 0, face
pattern at offset 20, second face triple (2, 2, 5) — degenerate. -/
def bufDegen : Buf :=
  magicA ++ [2, 0, 0, 0] ++ [0, 0, 0, 0] ++ [0, 0, 0, 0] ++ facePat
    ++ [2, 0, 0, 0, 2, 0, 0, 0, 5, 0, 0, 0]

/-- Concrete file: face_count = 1, vert_count = 0, stride = 0, only face
triple is the pattern (0, 1, 2) itself. -/
def bufOneFace : Buf :=
  magicA ++ [1, 0, 0, 0] ++ [0, 0, 0, 0] ++ [0, 0, 0, 0] ++ facePat

/-- `bufOneFace` with a different 8-byte magic. -/
def bufMagicB : Buf :=
  [17, 17, 17, 17, 17, 17, 17, 17] ++ [1, 0, 0, 0] ++ [0, 0, 0, 0] ++ [0, 0, 0, 0] ++ facePat

/-- `bufOneFace` with yet another 8-byte magic. -/
def bufMagicC : Buf :=
  [34, 34, 34, 34, 34, 34, 34, 34] ++ [1, 0, 0, 0] ++ [0, 0, 0, 0] ++ [0, 0, 0, 0] ++ facePat

/-- Concrete truncated file: declares vert_count = 5 with stride = 20 but
holds bytes for only one full record after the single face. -/
def bufTrunc : Buf :=
  magicA ++ [1, 0, 0, 0] ++ [5, 0, 0, 0] ++ [20, 0, 0, 0] ++ facePat
    ++ List.replicate 24 0

/-- Concrete complete file: one face, one vertex record, stride = 20
(a stride with a UV mapping). -/
def bufOne20 : Buf :=
  magicA ++ [1, 0, 0, 0] ++ [1, 0, 0, 0] ++ [20, 0, 0, 0] ++ facePat
    ++ List.replicate 24 0

/-- Concrete complete file: one face, one vertex record, stride = 16
(a stride without a UV mapping). -/
def bufOne16 : Buf :=
  magicA ++ [1, 0, 0, 0] ++ [1, 0, 0, 0] ++ [16, 0, 0, 0] ++ facePat
    ++ List.replicate 24 0

/-- A three-byte file: too short for the face pattern to occur at all. -/
def bufNoPat : Buf := [1, 2, 3]

/-! ### Basic reader lemmas -/

lemma safe_read_of_le {buf : Buf} {pos n : Nat} (h : pos + n ≤ buf.length) :
    safe_read buf pos n = Except.ok ((buf.drop pos).take n) := by
  have hc : ((buf.drop pos).take n).length = n := by
    simp only [List.length_take, List.length_drop]
    omega
  simp [safe_read, hc]

lemma read_int32_of_le {buf : Buf} {pos : Nat} (h : pos + 4 ≤ buf.length) :
    read_int32 buf pos = Except.ok (le32 ((buf.drop pos).take 4)) := by
  unfold read_int32
  rw [safe_read_of_le h]
  rfl

lemma read_float_of_le {f32 : List Nat → ℚ} {buf : Buf} {pos : Nat}
    (h : pos + 4 ≤ buf.length) :
    read_float f32 buf pos = Except.ok (f32 ((buf.drop pos).take 4)) := by
  unfold read_float
  rw [safe_read_of_le h]
  rfl

lemma read_float_ok {f32 : List Nat → ℚ} {buf : Buf} {pos : Nat} {q : ℚ}
    (h : read_float f32 buf pos = Except.ok q) :
    q = f32 ((buf.drop pos).take 4) := by
  simp only [read_float, safe_read] at h
  split at h
  · simp only [Except.map] at h
    injection h with h
    exact h.symm
  · simp [Except.map] at h

lemma patternAt_length {buf : Buf} {q : Nat} (h : patternAt buf q) :
    q + 12 ≤ buf.length := by
  have hlen := congrArg List.length h
  simp only [List.length_take, List.length_drop, facePat] at hlen
  simp at hlen
  omega

/-! ### Pattern-search lemmas -/

lemma findPat_some {l : List Nat} {i p : Nat} (h : findPat l i = some p) :
    i ≤ p ∧ (l.drop (p - i)).take 12 = facePat ∧
      ∀ q, i ≤ q → q < p → (l.drop (q - i)).take 12 ≠ facePat := by
  induction l generalizing i with
  | nil => simp [findPat] at h
  | cons a rest ih =>
    rw [findPat] at h
    by_cases hc : (a :: rest).take 12 = facePat
    · rw [if_pos hc] at h
      injection h with h
      subst h
      refine ⟨Nat.le_refl i, by simpa using hc, ?_⟩
      intro q hq1 hq2
      omega
    · rw [if_neg hc] at h
      obtain ⟨h1, h2, h3⟩ := ih h
      refine ⟨by omega, ?_, ?_⟩
      · have hpi : p - i = (p - (i + 1)) + 1 := by omega
        rw [hpi]
        simpa using h2
      · intro q hq1 hq2
        by_cases hqi : q = i
        · subst hqi
          simpa using hc
        · have hqd : q - i = (q - (i + 1)) + 1 := by omega
          rw [hqd]
          simpa using h3 q (by omega) hq2

lemma findPat_none {l : List Nat} {i : Nat} (h : findPat l i = none) :
    ∀ j, (l.drop j).take 12 ≠ facePat := by
  induction l generalizing i with
  | nil =>
    intro j
    simp [facePat]
  | cons a rest ih =>
    rw [findPat] at h
    by_cases hc : (a :: rest).take 12 = facePat
    · rw [if_pos hc] at h
      cases h
    · rw [if_neg hc] at h
      intro j
      cases j with
      | zero => simpa using hc
      | succ n => simpa using ih h n

lemma find_face_start_ok {buf : Buf} {p : Nat} (h : find_face_start buf = Except.ok p) :
    patternAt buf p ∧ ∀ q, q < p → ¬ patternAt buf q := by
  unfold find_face_start at h
  cases hf : findPat buf 0 with
  | none =>
    rw [hf] at h
    cases h
  | some r =>
    rw [hf] at h
    injection h with h
    subst h
    obtain ⟨_, h2, h3⟩ := findPat_some hf
    refine ⟨by simpa [patternAt] using h2, ?_⟩
    intro q hq hpat
    exact h3 q (Nat.zero_le q) hq (by simpa [patternAt] using hpat)

lemma find_face_start_err {buf : Buf} (h : ∀ q, ¬ patternAt buf q) :
    find_face_start buf = Except.error PyErr.valueErr := by
  unfold find_face_start
  cases hf : findPat buf 0 with
  | none => rfl
  | some p =>
    obtain ⟨_, h2, _⟩ := findPat_some hf
    exact absurd (by simpa [patternAt] using h2) (h p)

/-! ### Closed form of the face-extraction loop -/

lemma readFacesLoop_eq (buf : Buf) :
    ∀ k pos, pos + 12 * k ≤ buf.length →
      readFacesLoop buf pos k =
        ((List.range k).map (fun j =>
          (le32 ((buf.drop (pos + 12 * j)).take 4) + 1,
           le32 ((buf.drop (pos + 12 * j + 4)).take 4) + 1,
           le32 ((buf.drop (pos + 12 * j + 8)).take 4) + 1)), none) := by
  intro k
  induction k with
  | zero =>
    intro pos h
    simp [readFacesLoop]
  | succ n ih =>
    intro pos h
    rw [readFacesLoop]
    rw [read_int32_of_le (by omega), read_int32_of_le (by omega),
      read_int32_of_le (by omega)]
    rw [ih (pos + 12) (by omega)]
    simp only [List.range_succ_eq_map, List.map_cons, List.map_map]
    refine congrArg (fun l => (l, (none : Option PyErr))) ?_
    refine congrArg₂ List.cons (by simp) ?_
    refine List.map_congr_left ?_
    intro j _
    have h1 : pos + 12 * (j + 1) = pos + 12 + 12 * j := by ring
    simp only [Function.comp, h1]

/-! ### The vertex-decode loop on success: lengths and the UV closed form -/

lemma readVerticesLoop_spec (f32 : List Nat → ℚ) (buf : Buf) (vds stride : Nat)
    (uvo : Option Nat) :
    ∀ k i, (readVerticesLoop f32 buf vds stride uvo i k).2.2.2 = none →
      (readVerticesLoop f32 buf vds stride uvo i k).1.length = k ∧
      (readVerticesLoop f32 buf vds stride uvo i k).2.1.length = k ∧
      (readVerticesLoop f32 buf vds stride uvo i k).2.2.1 =
        (match uvo with
         | none => []
         | some u => (List.range k).map (fun j =>
             (f32 ((buf.drop (vds + (i + j) * stride + u)).take 4),
              1 - f32 ((buf.drop (vds + (i + j) * stride + u + 4)).take 4)))) := by
  intro k
  induction k with
  | zero =>
    intro i h
    cases uvo <;> simp [readVerticesLoop]
  | succ n ih =>
    intro i h
    simp only [readVerticesLoop] at h ⊢
    cases hvx : read_float f32 buf (vds + i * stride) with
    | error e => simp [hvx] at h
    | ok vx =>
    simp only [hvx] at h ⊢
    cases hvy : read_float f32 buf (vds + i * stride + 4) with
    | error e => simp [hvy] at h
    | ok vy =>
    simp only [hvy] at h ⊢
    cases hvz : read_float f32 buf (vds + i * stride + 8) with
    | error e => simp [hvz] at h
    | ok vz =>
    simp only [hvz] at h ⊢
    cases hnx : read_float f32 buf (vds + i * stride + 12) with
    | error e => simp [hnx] at h
    | ok nx =>
    simp only [hnx] at h ⊢
    cases hny : read_float f32 buf (vds + i * stride + 16) with
    | error e => simp [hny] at h
    | ok ny =>
    simp only [hny] at h ⊢
    cases hnz : read_float f32 buf (vds + i * stride + 20) with
    | error e => simp [hnz] at h
    | ok nz =>
    simp only [hnz] at h ⊢
    cases uvo with
    | none =>
      obtain ⟨l1, l2, l3⟩ := ih (i + 1) (by simpa using h)
      exact ⟨by simp [l1], by simp [l2], by simpa using l3⟩
    | some u =>
      cases huu : read_float f32 buf (vds + i * stride + u) with
      | error e => simp [huu] at h
      | ok uu =>
      simp only [huu] at h ⊢
      cases hvv : read_float f32 buf (vds + i * stride + u + 4) with
      | error e => simp [hvv] at h
      | ok vvRaw =>
      simp only [hvv] at h ⊢
      obtain ⟨l1, l2, l3⟩ := ih (i + 1) (by simpa using h)
      refine ⟨by simp [l1], by simp [l2], ?_⟩
      simp only [FLIP_UV_VERTICALLY, if_true]
      rw [read_float_ok huu, read_float_ok hvv]
      rw [l3]
      simp only [List.range_succ_eq_map, List.map_cons, List.map_map]
      refine congrArg₂ List.cons (by simp) ?_
      refine List.map_congr_left ?_
      intro j _
      have h1 : vds + (i + (j + 1)) * stride + u = vds + (i + 1 + j) * stride + u := by
        ring
      have h2 : vds + (i + (j + 1)) * stride + u + 4 = vds + (i + 1 + j) * stride + u + 4 := by
        ring
      simp only [Function.comp, Nat.succ_eq_add_one, h1, h2]

/-! ### Characterizing the converter run -/

lemma afterHeader_fields (f32 : List Nat → ℚ) (buf : Buf) (fc vc st : Nat) :
    (afterHeader f32 buf fc vc st).face_count = fc ∧
    (afterHeader f32 buf fc vc st).vert_count = vc ∧
    (afterHeader f32 buf fc vc st).stride = st := by
  unfold afterHeader afterFaceStart
  cases hf : find_face_start buf with
  | error e => simp
  | ok fs =>
    cases hfr : (readFacesLoop buf fs fc).2 with
    | none => simp [hfr]
    | some e => simp [hfr]

lemma convert_read_header (f32 : List Nat → ℚ) (buf : Buf) (h : 20 ≤ buf.length) :
    convert_read f32 buf =
      afterHeader f32 buf (le32 ((buf.drop 8).take 4)) (le32 ((buf.drop 12).take 4))
        (le32 ((buf.drop 16).take 4)) := by
  unfold convert_read
  rw [safe_read_of_le (show 0 + 8 ≤ buf.length by omega),
    read_int32_of_le (show 8 + 4 ≤ buf.length by omega),
    read_int32_of_le (show 12 + 4 ≤ buf.length by omega),
    read_int32_of_le (show 16 + 4 ≤ buf.length by omega)]

lemma convert_read_none_parts {f32 : List Nat → ℚ} {buf : Buf}
    (h : (convert_read f32 buf).error = none) :
    ∃ fc vc st fs,
      read_int32 buf 8 = Except.ok fc ∧
      read_int32 buf 12 = Except.ok vc ∧
      read_int32 buf 16 = Except.ok st ∧
      find_face_start buf = Except.ok fs ∧
      (readFacesLoop buf fs fc).2 = none ∧
      (readVerticesLoop f32 buf (fs + 12 * fc) st (UV_OFFSET_MAP st) 0 vc).2.2.2 = none ∧
      convert_read f32 buf =
        ⟨fc, vc, st,
         (readVerticesLoop f32 buf (fs + 12 * fc) st (UV_OFFSET_MAP st) 0 vc).1,
         (readVerticesLoop f32 buf (fs + 12 * fc) st (UV_OFFSET_MAP st) 0 vc).2.1,
         (readVerticesLoop f32 buf (fs + 12 * fc) st (UV_OFFSET_MAP st) 0 vc).2.2.1,
         (readFacesLoop buf fs fc).1, none⟩ := by
  unfold convert_read at h
  cases hm : safe_read buf 0 8 with
  | error e => simp [hm, errResult] at h
  | ok m =>
  simp only [hm] at h
  cases h8 : read_int32 buf 8 with
  | error e => simp [h8, errResult] at h
  | ok fc =>
  simp only [h8] at h
  cases h12 : read_int32 buf 12 with
  | error e => simp [h12, errResult] at h
  | ok vc =>
  simp only [h12] at h
  cases h16 : read_int32 buf 16 with
  | error e => simp [h16, errResult] at h
  | ok st =>
  simp only [h16] at h
  unfold afterHeader at h
  cases hf : find_face_start buf with
  | error e => simp [hf] at h
  | ok fs =>
  simp only [hf] at h
  unfold afterFaceStart at h
  cases hfr : (readFacesLoop buf fs fc).2 with
  | some e => simp [hfr] at h
  | none =>
  simp only [hfr] at h
  refine ⟨fc, vc, st, fs, rfl, rfl, rfl, rfl, hfr, by simpa using h, ?_⟩
  simp only [convert_read, afterHeader, afterFaceStart, hm, h8, h12, h16, hf, hfr]
  have he : (readVerticesLoop f32 buf (fs + 12 * fc) st (UV_OFFSET_MAP st) 0 vc).2.2.2
      = none := by simpa using h
  rw [he]

lemma option_cases (o : Option Nat) : o = none ∨ ∃ u, o = some u := by
  cases o
  · exact Or.inl rfl
  · exact Or.inr ⟨_, rfl⟩

lemma seekTargets_append (l1 l2 : List Ev) :
    seekTargets (l1 ++ l2) = seekTargets l1 ++ seekTargets l2 :=
  List.filterMap_append l1 l2 _

lemma convert_read_no_pattern {f32 : List Nat → ℚ} {buf : Buf}
    (hferr : find_face_start buf = Except.error PyErr.valueErr) :
    (convert_read f32 buf).faces = [] ∧ (convert_read f32 buf).error.isSome = true := by
  unfold convert_read
  cases hm : safe_read buf 0 8 with
  | error e => simp [errResult]
  | ok m =>
    cases h8 : read_int32 buf 8 with
    | error e => simp [errResult]
    | ok fc =>
      cases h12 : read_int32 buf 12 with
      | error e => simp [errResult]
      | ok vc =>
        cases h16 : read_int32 buf 16 with
        | error e => simp [errResult]
        | ok st => simp [afterHeader, hferr]

lemma afterHeader_faces (f32 : List Nat → ℚ) (buf : Buf) (fc vc st p : Nat)
    (hok : find_face_start buf = Except.ok p) :
    (afterHeader f32 buf fc vc st).faces = (readFacesLoop buf p fc).1 := by
  simp only [afterHeader, hok]
  simp only [afterFaceStart]
  cases hfr : (readFacesLoop buf p fc).2 with
  | some e => simp [hfr]
  | none => simp [hfr]

/-! ### The claims -/

/-- C8: `safe_read` returns exactly `n` bytes when at least `n` bytes remain
after the current position, and fails with an end-of-file error when fewer
than `n` remain; it never returns a short read. -/
theorem c8_safe_read_exact (buf : Buf) (pos n : Nat) :
    readLen (safe_read buf pos n) = if n ≤ buf.length - pos then some n else none := by
  have hlen : ((buf.drop pos).take n).length = min n (buf.length - pos) := by
    simp [List.length_take, List.length_drop]
  by_cases h : n ≤ buf.length - pos
  · have hc : ((buf.drop pos).take n).length = n := by omega
    simp [safe_read, hc, readLen, h]
  · have hc : ¬ ((buf.drop pos).take n).length = n := by omega
    simp [safe_read, hc, readLen, h]

/-- C1 counterexample: the file `bufDegen` declares two face triples, the
second being the degenerate raw triple (2, 2, 5); the converter finishes
without error and the degenerate triple is retained in the face list (as
(3, 3, 6) after the converter's one-based shift), so a triplet with a
repeated index does appear among the mesh's triangle indices. -/
theorem c1_degenerate_retained_cex :
    (convert_read f32zero bufDegen).error = none ∧
      (3, 3, 6) ∈ (convert_read f32zero bufDegen).faces := by
  decide

/-- C1 (amended): the face-extraction loop retains every triplet it reads,
with no degenerate filtering: whenever the declared number of triples is
readable, the loop finishes without error and the retained count equals
the declared count — repeated indices included. -/
theorem c1_faces_retained_unfiltered (buf : Buf) (pos k : Nat)
    (h : pos + 12 * k ≤ buf.length) :
    (readFacesLoop buf pos k).2 = none ∧ (readFacesLoop buf pos k).1.length = k := by
  rw [readFacesLoop_eq buf k pos h]
  simp

theorem c1_faces_retained_unfiltered_witness :
    20 + 12 * 2 ≤ bufDegen.length ∧
      (readFacesLoop bufDegen 20 2).2 = none ∧ (readFacesLoop bufDegen 20 2).1.length = 2 :=
  ⟨by decide, c1_faces_retained_unfiltered bufDegen 20 2 (by decide)⟩

/-- C4 counterexample: in `bufOneFace` the only raw face triple read is
(0, 1, 2) and the declared vertex count is 0, yet the retained triple is
(1, 2, 3): the indices are not passed through unchanged, and they do not
lie in the range [0, vertex_count) = [0, 0). -/
theorem c4_indices_shifted_cex :
    (convert_read f32zero bufOneFace).error = none ∧
      (convert_read f32zero bufOneFace).faces = [(1, 2, 3)] ∧
      (convert_read f32zero bufOneFace).vert_count = 0 := by
  decide

/-- C4 (amended): every retained face index equals the raw zero-based index
decoded from the file plus one (the converter emits one-based OBJ indices),
and no range check against the vertex count is performed. -/
theorem c4_indices_plus_one (buf : Buf) (pos k j : Nat)
    (h : pos + 12 * k ≤ buf.length) (hj : j < k) :
    (readFacesLoop buf pos k).1[j]? =
      some (le32 ((buf.drop (pos + 12 * j)).take 4) + 1,
        le32 ((buf.drop (pos + 12 * j + 4)).take 4) + 1,
        le32 ((buf.drop (pos + 12 * j + 8)).take 4) + 1) := by
  rw [readFacesLoop_eq buf k pos h]
  simp [List.getElem?_map, List.getElem?_range hj]

theorem c4_indices_plus_one_witness :
    20 + 12 * 2 ≤ bufDegen.length ∧ 1 < 2 ∧
      (readFacesLoop bufDegen 20 2).1[1]? =
        some (le32 ((bufDegen.drop (20 + 12 * 1)).take 4) + 1,
          le32 ((bufDegen.drop (20 + 12 * 1 + 4)).take 4) + 1,
          le32 ((bufDegen.drop (20 + 12 * 1 + 8)).take 4) + 1) :=
  ⟨by decide, by decide, c4_indices_plus_one bufDegen 20 2 1 (by decide) (by decide)⟩

/-- C6 counterexample: with stride 184 (a stride the converter supports)
the vertex-decode trace is not a no-reseek sequential pass, neither with UV
extraction (the per-record UV seek jumps from offset 24 of the record to
offset 60) nor without it (the next record's seek jumps from offset 24 to
offset 184). -/
theorem c6_reseek_cex :
    noReseek 100 (vertexLoopTrace 100 184 (some 60) 0 1) = false ∧
      noReseek 100 (vertexLoopTrace 100 184 none 0 2) = false := by
  decide

/-- C6 (amended): the vertex-decode loop visits the declared records in
increasing index order, but by explicit seeks: one seek per record to its
start `vds + i * stride` and, when UV extraction is active, one further
seek per record to its UV offset — not a seek-free sequential pass. -/
theorem c6_seek_per_record (vds stride u : Nat) :
    (∀ k i, seekTargets (vertexLoopTrace vds stride none i k) =
      (List.range k).map (fun j => vds + (i + j) * stride)) ∧
    (∀ k i, seekTargets (vertexLoopTrace vds stride (some u) i k) =
      (List.range k).flatMap (fun j =>
        [vds + (i + j) * stride, vds + (i + j) * stride + u])) := by
  constructor
  · intro k
    induction k with
    | zero => intro i; simp [vertexLoopTrace, seekTargets]
    | succ n ih =>
      intro i
      rw [vertexLoopTrace]
      rw [seekTargets_append]
      rw [show seekTargets ([Ev.seek (vds + i * stride), Ev.read (vds + i * stride) 4,
        Ev.read (vds + i * stride + 4) 4, Ev.read (vds + i * stride + 8) 4,
        Ev.read (vds + i * stride + 12) 4, Ev.read (vds + i * stride + 16) 4,
        Ev.read (vds + i * stride + 20) 4] ++ ([] : List Ev)) = [vds + i * stride] from
        rfl]
      rw [ih (i + 1), List.range_succ_eq_map]
      simp only [List.map_cons, List.map_map, List.singleton_append]
      refine congrArg₂ List.cons (by simp) ?_
      refine List.map_congr_left ?_
      intro j _
      simp only [Function.comp, Nat.succ_eq_add_one]
      ring
  · intro k
    induction k with
    | zero => intro i; simp [vertexLoopTrace, seekTargets]
    | succ n ih =>
      intro i
      rw [vertexLoopTrace]
      rw [seekTargets_append]
      rw [show seekTargets ([Ev.seek (vds + i * stride), Ev.read (vds + i * stride) 4,
        Ev.read (vds + i * stride + 4) 4, Ev.read (vds + i * stride + 8) 4,
        Ev.read (vds + i * stride + 12) 4, Ev.read (vds + i * stride + 16) 4,
        Ev.read (vds + i * stride + 20) 4] ++
          [Ev.seek (vds + i * stride + u), Ev.read (vds + i * stride + u) 4,
            Ev.read (vds + i * stride + u + 4) 4]) =
        [vds + i * stride, vds + i * stride + u] from rfl]
      rw [ih (i + 1), List.range_succ_eq_map, List.flatMap_cons]
      have hmap : (List.map Nat.succ (List.range n)).flatMap
          (fun j => [vds + (i + j) * stride, vds + (i + j) * stride + u]) =
          (List.range n).flatMap
            (fun j => [vds + (i + 1 + j) * stride, vds + (i + 1 + j) * stride + u]) := by
        rw [List.flatMap, List.flatMap, List.map_map]
        refine congrArg List.flatten ?_
        refine List.map_congr_left ?_
        intro j _
        simp only [Function.comp, Nat.succ_eq_add_one]
        refine congrArg₂ List.cons (by ring) (congrArg₂ List.cons (by ring) rfl)
      rw [hmap]
      simp

/-- C3 counterexample: `bufMagicB` and `bufMagicC` differ only in their
8-byte magic field, yet the converter finishes both without any error:
whatever fixed constant a magic check could use, at least one of the two
magics differs from it, and that file still parses past the header — so
no `BadMagic` failure exists. -/
theorem c3_magic_not_validated_cex :
    (convert_read f32zero bufMagicB).error = none ∧
      (convert_read f32zero bufMagicC).error = none ∧
      bufMagicB.take 8 ≠ bufMagicC.take 8 := by
  decide

/-- C3 (amended): the 8-byte header magic is read but never compared to any
constant: for an arbitrary 8-byte magic block the header read succeeds and
returns the block unvalidated, and the face-count, vertex-count and stride
fields subsequently parsed do not depend on the magic's value. -/
theorem c3_magic_read_unvalidated (f32 : List Nat → ℚ) (m rest : Buf)
    (hm : m.length = 8) (hr : 12 ≤ rest.length) :
    safe_read (m ++ rest) 0 8 = Except.ok m ∧
    (convert_read f32 (m ++ rest)).face_count = le32 (rest.take 4) ∧
    (convert_read f32 (m ++ rest)).vert_count = le32 ((rest.drop 4).take 4) ∧
    (convert_read f32 (m ++ rest)).stride = le32 ((rest.drop 8).take 4) := by
  have hlen : (m ++ rest).length = 8 + rest.length := by simp [hm]
  have hd8 : (m ++ rest).drop 8 = rest := by
    rw [← hm]
    exact List.drop_left m rest
  have hd12 : (m ++ rest).drop 12 = rest.drop 4 := by
    rw [show (12 : Nat) = 8 + 4 by norm_num, ← List.drop_drop, hd8]
  have hd16 : (m ++ rest).drop 16 = rest.drop 8 := by
    rw [show (16 : Nat) = 8 + 8 by norm_num, ← List.drop_drop, hd8]
  refine ⟨?_, ?_, ?_, ?_⟩
  · rw [safe_read_of_le (by omega)]
    congr 1
    rw [List.drop_zero, ← hm, List.take_left]
  · rw [convert_read_header f32 (m ++ rest) (by omega)]
    obtain ⟨hA, _, _⟩ := afterHeader_fields f32 (m ++ rest) (le32 (((m ++ rest).drop 8).take 4))
      (le32 (((m ++ rest).drop 12).take 4)) (le32 (((m ++ rest).drop 16).take 4))
    rw [hA, hd8]
  · rw [convert_read_header f32 (m ++ rest) (by omega)]
    obtain ⟨_, hB, _⟩ := afterHeader_fields f32 (m ++ rest) (le32 (((m ++ rest).drop 8).take 4))
      (le32 (((m ++ rest).drop 12).take 4)) (le32 (((m ++ rest).drop 16).take 4))
    rw [hB, hd12]
  · rw [convert_read_header f32 (m ++ rest) (by omega)]
    obtain ⟨_, _, hC⟩ := afterHeader_fields f32 (m ++ rest) (le32 (((m ++ rest).drop 8).take 4))
      (le32 (((m ++ rest).drop 12).take 4)) (le32 (((m ++ rest).drop 16).take 4))
    rw [hC, hd16]

/-- A 12-byte header-fields block used by the C3 witness. -/
def restA : Buf := [1, 0, 0, 0, 0, 0, 0, 0, 16, 0, 0, 0]

theorem c3_magic_read_unvalidated_witness :
    magicA.length = 8 ∧ 12 ≤ restA.length ∧
      (safe_read (magicA ++ restA) 0 8 = Except.ok magicA ∧
        (convert_read f32zero (magicA ++ restA)).face_count = le32 (restA.take 4) ∧
        (convert_read f32zero (magicA ++ restA)).vert_count = le32 ((restA.drop 4).take 4) ∧
        (convert_read f32zero (magicA ++ restA)).stride = le32 ((restA.drop 8).take 4)) :=
  ⟨by decide, by decide, c3_magic_read_unvalidated f32zero magicA restA (by decide) (by decide)⟩

/-- C2 counterexample: `bufTrunc` declares 5 vertices but holds bytes for
only one record, so reading fails with an end-of-file error — yet the
converter still produces a partial mesh (one vertex) and still writes the
OBJ output for that input (header line, one `v` line, one `f` line),
contradicting the claim that no mesh is produced and no output is written
for a failed input. -/
theorem c2_output_written_on_failure_cex :
    (convert_read f32zero bufTrunc).error = some PyErr.eof ∧
      (convert_read f32zero bufTrunc).vertices ≠ [] ∧
      ((convert_rip_to_obj f32zero [] bufTrunc).1).head? = some ObjLine.header ∧
      ((convert_rip_to_obj f32zero [] bufTrunc).1).countP ObjLine.isV = 1 ∧
      ((convert_rip_to_obj f32zero [] bufTrunc).1).countP ObjLine.isF = 1 := by
  decide

lemma countP_map_true {α β : Type} (p : β → Bool) (f : α → β) (l : List α)
    (h : ∀ x, p (f x) = true) : (l.map f).countP p = l.length := by
  induction l with
  | nil => rfl
  | cons a t ih => simp [List.countP_cons, h, ih]

lemma countP_map_false {α β : Type} (p : β → Bool) (f : α → β) (l : List α)
    (h : ∀ x, p (f x) = false) : (l.map f).countP p = 0 := by
  induction l with
  | nil => rfl
  | cons a t ih => simp [List.countP_cons, h, ih]

lemma write_obj_countV (textures : List String) (r : RipResult) :
    (write_obj textures r).countP ObjLine.isV = r.vertices.length := by
  unfold write_obj
  simp only [List.countP_append]
  rw [countP_map_true ObjLine.isV (fun p => ObjLine.v p.1 p.2.1 p.2.2) r.vertices
      (fun x => rfl),
    countP_map_false ObjLine.isV (fun p => ObjLine.vt p.1 p.2) r.uvs (fun x => rfl),
    countP_map_false ObjLine.isV (fun p => ObjLine.vn p.1 p.2.1 p.2.2) r.normals
      (fun x => rfl),
    countP_map_false ObjLine.isV (fun t => ObjLine.face t.1 t.2.1 t.2.2) r.faces
      (fun x => rfl)]
  have e1 : [ObjLine.header].countP ObjLine.isV = 0 := rfl
  have e2 : [ObjLine.mtllib].countP ObjLine.isV = 0 := rfl
  have e3 : [ObjLine.usemtl].countP ObjLine.isV = 0 := rfl
  have e4 : ([] : List ObjLine).countP ObjLine.isV = 0 := rfl
  cases ht : textures.isEmpty <;> simp [ht, e1, e2, e3, e4]

lemma write_obj_countF (textures : List String) (r : RipResult) :
    (write_obj textures r).countP ObjLine.isF = r.faces.length := by
  unfold write_obj
  simp only [List.countP_append]
  rw [countP_map_false ObjLine.isF (fun p => ObjLine.v p.1 p.2.1 p.2.2) r.vertices
      (fun x => rfl),
    countP_map_false ObjLine.isF (fun p => ObjLine.vt p.1 p.2) r.uvs (fun x => rfl),
    countP_map_false ObjLine.isF (fun p => ObjLine.vn p.1 p.2.1 p.2.2) r.normals
      (fun x => rfl),
    countP_map_true ObjLine.isF (fun t => ObjLine.face t.1 t.2.1 t.2.2) r.faces
      (fun x => rfl)]
  have e1 : [ObjLine.header].countP ObjLine.isF = 0 := rfl
  have e2 : [ObjLine.mtllib].countP ObjLine.isF = 0 := rfl
  have e3 : [ObjLine.usemtl].countP ObjLine.isF = 0 := rfl
  have e4 : ([] : List ObjLine).countP ObjLine.isF = 0 := rfl
  cases ht : textures.isEmpty <;> simp [ht, e1, e2, e3, e4]

/-- C2 (amended): a reading failure does not abort the conversion — the
exception is caught and the OBJ output is still written, from whatever was
read so far: the output always begins with the header comment and contains
exactly one `v` line per partially-extracted vertex and one `f` line per
partially-extracted face. -/
theorem c2_partial_output_on_failure (f32 : List Nat → ℚ) (textures : List String)
    (buf : Buf) (h : (convert_read f32 buf).error.isSome = true) :
    ((convert_rip_to_obj f32 textures buf).1).head? = some ObjLine.header ∧
    ((convert_rip_to_obj f32 textures buf).1).countP ObjLine.isV =
      (convert_read f32 buf).vertices.length ∧
    ((convert_rip_to_obj f32 textures buf).1).countP ObjLine.isF =
      (convert_read f32 buf).faces.length := by
  have hfst : (convert_rip_to_obj f32 textures buf).1 =
      write_obj textures (convert_read f32 buf) := rfl
  rw [hfst]
  refine ⟨?_, write_obj_countV textures _, write_obj_countF textures _⟩
  unfold write_obj
  simp

theorem c2_partial_output_on_failure_witness :
    (convert_read f32zero bufTrunc).error.isSome = true ∧
      (((convert_rip_to_obj f32zero [] bufTrunc).1).head? = some ObjLine.header ∧
        ((convert_rip_to_obj f32zero [] bufTrunc).1).countP ObjLine.isV =
          (convert_read f32zero bufTrunc).vertices.length ∧
        ((convert_rip_to_obj f32zero [] bufTrunc).1).countP ObjLine.isF =
          (convert_read f32zero bufTrunc).faces.length) :=
  ⟨by decide, c2_partial_output_on_failure f32zero [] bufTrunc (by decide)⟩

/-- C5: when the converter finishes a file without error, the vertex list
and the normal list each have the declared vertex count as length, and the
UV list, when present (nonempty), also has that length. -/
theorem c5_equal_lengths (f32 : List Nat → ℚ) (buf : Buf)
    (h : (convert_read f32 buf).error = none) :
    (convert_read f32 buf).vertices.length = (convert_read f32 buf).vert_count ∧
    (convert_read f32 buf).normals.length = (convert_read f32 buf).vert_count ∧
    ((convert_read f32 buf).uvs ≠ [] →
      (convert_read f32 buf).uvs.length = (convert_read f32 buf).vert_count) := by
  obtain ⟨fc, vc, st, fs, h8, h12, h16, hf, hfr, hvn, heq⟩ := convert_read_none_parts h
  obtain ⟨l1, l2, l3⟩ :=
    readVerticesLoop_spec f32 buf (fs + 12 * fc) st (UV_OFFSET_MAP st) vc 0 hvn
  rw [heq]
  refine ⟨by simpa using l1, by simpa using l2, ?_⟩
  intro hne
  obtain huv | ⟨u, huv⟩ := option_cases (UV_OFFSET_MAP st)
  · rw [huv] at l3 hne
    simp at l3
    exact (hne (by simpa using l3)).elim
  · rw [huv] at l3 ⊢
    simp at l3
    simp [l3]

theorem c5_equal_lengths_witness :
    (convert_read f32zero bufOne20).error = none ∧
      (convert_read f32zero bufOne20).uvs ≠ [] ∧
      (convert_read f32zero bufOne20).vertices.length =
        (convert_read f32zero bufOne20).vert_count ∧
      (convert_read f32zero bufOne20).normals.length =
        (convert_read f32zero bufOne20).vert_count ∧
      (convert_read f32zero bufOne20).uvs.length =
        (convert_read f32zero bufOne20).vert_count :=
  ⟨by decide, by decide, (c5_equal_lengths f32zero bufOne20 (by decide)).1,
    (c5_equal_lengths f32zero bufOne20 (by decide)).2.1,
    (c5_equal_lengths f32zero bufOne20 (by decide)).2.2 (by decide)⟩

/-- C7: when the vertex-decode loop finishes without error with UV
extraction active (UV offset `u`), the stored texture coordinate of vertex
`j` is exactly `(rawU, 1 - rawV)` where `rawU` and `rawV` are the raw float
values decoded at the record's UV offset: the U component is unchanged and
the V component is vertically flipped. -/
theorem c7_uv_flip (f32 : List Nat → ℚ) (buf : Buf) (vds stride u k : Nat)
    (h : (readVerticesLoop f32 buf vds stride (some u) 0 k).2.2.2 = none) :
    (readVerticesLoop f32 buf vds stride (some u) 0 k).2.2.1 =
      (List.range k).map (fun j =>
        (f32 ((buf.drop (vds + j * stride + u)).take 4),
         1 - f32 ((buf.drop (vds + j * stride + u + 4)).take 4))) := by
  obtain ⟨_, _, l3⟩ := readVerticesLoop_spec f32 buf vds stride (some u) k 0 h
  simpa using l3

theorem c7_uv_flip_witness :
    (readVerticesLoop f32zero bufOne20 32 20 (some 12) 0 1).2.2.2 = none ∧
      (readVerticesLoop f32zero bufOne20 32 20 (some 12) 0 1).2.2.1 =
        (List.range 1).map (fun j =>
          (f32zero ((bufOne20.drop (32 + j * 20 + 12)).take 4),
           1 - f32zero ((bufOne20.drop (32 + j * 20 + 12 + 4)).take 4))) :=
  ⟨by decide, c7_uv_flip f32zero bufOne20 32 20 12 1 (by decide)⟩

/-- C9: `find_face_start` returns the offset of the first occurrence of the
12-byte little-endian (0, 1, 2) pattern anywhere in the file, face
extraction starts exactly there, and when the pattern occurs nowhere the
conversion of the file records an error with no face read. -/
theorem c9_face_start_first_occurrence (f32 : List Nat → ℚ) (buf : Buf) (p : Nat) :
    (find_face_start buf = Except.ok p →
      patternAt buf p ∧ ∀ q, q < p → ¬ patternAt buf q) ∧
    ((∀ q, ¬ patternAt buf q) →
      (convert_read f32 buf).faces = [] ∧ (convert_read f32 buf).error.isSome = true) ∧
    (20 ≤ buf.length → find_face_start buf = Except.ok p →
      (convert_read f32 buf).faces =
        (readFacesLoop buf p ((convert_read f32 buf).face_count)).1) := by
  refine ⟨fun h => find_face_start_ok h, ?_, ?_⟩
  · intro hq
    exact convert_read_no_pattern (find_face_start_err hq)
  · intro hlen hok
    rw [convert_read_header f32 buf hlen]
    obtain ⟨hA, _, _⟩ := afterHeader_fields f32 buf (le32 ((buf.drop 8).take 4))
      (le32 ((buf.drop 12).take 4)) (le32 ((buf.drop 16).take 4))
    rw [hA, afterHeader_faces f32 buf (le32 ((buf.drop 8).take 4))
      (le32 ((buf.drop 12).take 4)) (le32 ((buf.drop 16).take 4)) p hok]

theorem c9_face_start_first_occurrence_witness :
    (patternAt bufDegen 20 ∧ ∀ q, q < 20 → ¬ patternAt bufDegen q) ∧
      ((convert_read f32zero bufNoPat).faces = [] ∧
        (convert_read f32zero bufNoPat).error.isSome = true) ∧
      (convert_read f32zero bufDegen).faces =
        (readFacesLoop bufDegen 20 ((convert_read f32zero bufDegen).face_count)).1 := by
  refine ⟨(c9_face_start_first_occurrence f32zero bufDegen 20).1 (by rfl),
    (c9_face_start_first_occurrence f32zero bufNoPat 0).2.1 ?_,
    (c9_face_start_first_occurrence f32zero bufDegen 20).2.2 (by decide) (by rfl)⟩
  intro q h
  have h2 := patternAt_length h
  simp only [bufNoPat, List.length_cons, List.length_nil] at h2
  omega

/-- C10: UV extraction is keyed on the stride: the stride-to-UV-offset
table has exactly the keys 184, 160, 56 and 20, a run that finishes
without error on a stride with a table entry yields one UV pair per
declared vertex, and a run that finishes without error on any other
stride yields an empty UV list. -/
theorem c10_uv_iff_stride (f32 : List Nat → ℚ) (buf : Buf)
    (h : (convert_read f32 buf).error = none) :
    (∀ s, (UV_OFFSET_MAP s).isSome = true ↔ (s = 184 ∨ s = 160 ∨ s = 56 ∨ s = 20)) ∧
    ((UV_OFFSET_MAP (convert_read f32 buf).stride).isSome = true →
      (convert_read f32 buf).uvs.length = (convert_read f32 buf).vert_count) ∧
    (UV_OFFSET_MAP (convert_read f32 buf).stride = none →
      (convert_read f32 buf).uvs = []) := by
  obtain ⟨fc, vc, st, fs, h8, h12, h16, hf, hfr, hvn, heq⟩ := convert_read_none_parts h
  obtain ⟨l1, l2, l3⟩ :=
    readVerticesLoop_spec f32 buf (fs + 12 * fc) st (UV_OFFSET_MAP st) vc 0 hvn
  refine ⟨?_, ?_, ?_⟩
  · intro s
    unfold UV_OFFSET_MAP
    by_cases h1 : s = 184 <;> by_cases h2 : s = 160 <;> by_cases h3 : s = 56 <;>
      by_cases h4 : s = 20 <;> simp [h1, h2, h3, h4]
  · rw [heq]
    intro hsome
    have hsome2 : (UV_OFFSET_MAP st).isSome = true := hsome
    obtain huv | ⟨u, huv⟩ := option_cases (UV_OFFSET_MAP st)
    · rw [huv] at hsome2
      simp at hsome2
    · rw [huv] at l3 ⊢
      simp at l3
      simp [l3]
  · rw [heq]
    intro hnone
    have hnone2 : UV_OFFSET_MAP st = none := hnone
    rw [hnone2] at l3 ⊢
    simpa using l3

theorem c10_uv_iff_stride_witness :
    (convert_read f32zero bufOne16).error = none ∧
      (convert_read f32zero bufOne16).stride = 16 ∧
      (convert_read f32zero bufOne16).uvs = [] ∧
      (convert_read f32zero bufOne20).error = none ∧
      (convert_read f32zero bufOne20).stride = 20 ∧
      (convert_read f32zero bufOne20).uvs.length =
        (convert_read f32zero bufOne20).vert_count :=
  ⟨by decide, by decide,
    (c10_uv_iff_stride f32zero bufOne16 (by decide)).2.2 (by decide),
    by decide, by decide,
    (c10_uv_iff_stride f32zero bufOne20 (by decide)).2.1 (by decide)⟩

end NinjaRip
